import Mathlib

/-!
Verification development for the quickproxy HTTP proxy pipeline
(src/quickproxy/proxy.py).

The embedding models the pipeline of `_make_proxy`'s `ProxyHandler`:

* `make_requestobj`   (proxy.py lines 82-121)  — the inbound translator,
* `make_request`      (proxy.py lines 123-161) — the outbound builder,
* `handle_request`    (proxy.py lines 163-221) — hook dispatch, body
  normalization, fetch dispatch and the hard-failure path,
* `handle_response`   (proxy.py lines 223-308) — outbound translation,
  response/error hooks, and the response emitter (status mapping, header
  selection, cookie re-encoding, body write).

Strings are modelled as `List Char` (`Str`).  Header collections follow the
semantics of tornado's `httputil.HTTPHeaders` (an ordered, case-insensitive
multimap whose single-value lookup returns the comma-join of all values and
whose `get_list` returns all values); keys are normalized by lowercasing,
which is equivalent up to spelling to tornado's Camel-Dash normalization
because every lookup in the source is case-insensitive.

The external collaborators — the cookie parser (`Cookie.BaseCookie`'s
string parsing), the date parser (`dateutil.parser.parse`) and the fetch
transport — are opaque capabilities of the source.  They enter the model as
parameters: `pc : Str → List Morsel` parses one textual Set-Cookie value
into morsels, `pd : Str → Option Int` parses a textual date into a
timestamp (`none` models the parse raising), and a `FetchOutcome` value
models the three-way result of `tornado.httpclient.AsyncHTTPClient.fetch`.
Everything else is translated directly from proxy.py.
-/

namespace Quickproxy

abbrev Str := List Char

/-- Lowercase a string character-wise (ASCII), modelling Python's
`str.lower` on header names and `urlparse`'s hostname/scheme lowering. -/
def lowerStr (s : Str) : Str := s.map Char.toLower

/-- Case-insensitive key comparison used by tornado's header dictionary. -/
def keyEq (a b : Str) : Bool := lowerStr a == lowerStr b

/-- Truthiness of an optional string, as Python: `None` and `''` are falsy. -/
def optTruthy : Option Str → Bool
  | none => false
  | some s => !s.isEmpty

/-- Header collections: ordered (name, value) pairs, case-insensitive keys
(tornado `httputil.HTTPHeaders`). -/
abbrev HeadersT := List (Str × Str)

/-- All values stored under a key, case-insensitively
(tornado `HTTPHeaders.get_list`). -/
def hGetList (h : HeadersT) (k : Str) : List Str :=
  (h.filter (fun e => keyEq e.1 k)).map (fun e => e.2)

/-- Single-value lookup (tornado `HTTPHeaders.get` via `__getitem__`):
repeated `add`s comma-join, so the stored single value for a key present
several times is the comma-join of all its values; an absent key gives
`none` (Python `None` default). -/
def hGet (h : HeadersT) (k : Str) : Option Str :=
  if hGetList h k = [] then none
  else some (List.intercalate (",".toList) (hGetList h k))

/-- Key membership test, case-insensitive (Python `key in headers`). -/
def hHasKey (h : HeadersT) (k : Str) : Bool :=
  h.any (fun e => keyEq e.1 k)

/-- Delete every value of a key (`del headers[key]` on tornado headers
removes the normalized key entirely; the source guards the delete with a
membership test, which makes it equivalent to this unconditional filter). -/
def hDel (h : HeadersT) (k : Str) : HeadersT :=
  h.filter (fun e => !(keyEq e.1 k))

/-- The distinct (normalized) key list of a header collection
(tornado `HTTPHeaders.keys()`: one entry per normalized name). -/
def hKeys (h : HeadersT) : List Str :=
  (h.map (fun e => lowerStr e.1)).foldl
    (fun acc k => if k ∈ acc then acc else acc ++ [k]) []

/-- `headers.setdefault(key, value)` (proxy.py line 128). -/
def hSetDefault (h : HeadersT) (k v : Str) : HeadersT :=
  if hHasKey h k then h else h ++ [(k, v)]

/-! ### URL parsing (Python 2 `urlparse.urlparse`) -/

/-- Characters admissible in a URL scheme (`urlparse.scheme_chars`). -/
def schemeChar (c : Char) : Bool :=
  c.isAlpha || c.isDigit || c == '+' || c == '-' || c == '.'

def hasChar (c : Char) (l : Str) : Bool := l.any (fun x => x == c)

def beforeChar (c : Char) (l : Str) : Str := l.takeWhile (fun x => x != c)

def afterChar (c : Char) (l : Str) : Str :=
  (l.dropWhile (fun x => x != c)).drop 1

def netlocEnd (c : Char) : Bool := c == '/' || c == '?' || c == '#'

/-- The result of `urlparse.urlparse`, restricted to the components the
source reads: `scheme`, the raw `netloc` (hostname, port and userinfo are
derived properties below), `path`, `query` and `fragment`. -/
structure ParsedUrl where
  scheme : Str
  netloc : Str
  path : Str
  query : Str
  fragment : Str
deriving DecidableEq

/-- Python 2 `urlparse.urlsplit` on an absolute-ish URL: scheme before the
first `:` when its characters are scheme characters (and the remainder is
not a bare port number), netloc after `//` up to the first of `/?#`, then
the fragment split at the first `#`, then the query at the first `?`. -/
def urlparseM (url : Str) : ParsedUrl :=
  let hasScheme : Bool :=
    hasChar ':' url
      && !(beforeChar ':' url).isEmpty
      && (beforeChar ':' url).all schemeChar
      && ((afterChar ':' url).isEmpty || (afterChar ':' url).any (fun c => !c.isDigit))
  let scheme : Str := if hasScheme then lowerStr (beforeChar ':' url) else []
  let rest : Str := if hasScheme then afterChar ':' url else url
  let hasNetloc : Bool := ("//".toList).isPrefixOf rest
  let netloc : Str := if hasNetloc then (rest.drop 2).takeWhile (fun c => !netlocEnd c) else []
  let rest2 : Str := if hasNetloc then (rest.drop 2).dropWhile (fun c => !netlocEnd c) else rest
  let rest3 : Str := if hasChar '#' rest2 then beforeChar '#' rest2 else rest2
  let fragment : Str := if hasChar '#' rest2 then afterChar '#' rest2 else []
  let path : Str := if hasChar '?' rest3 then beforeChar '?' rest3 else rest3
  let query : Str := if hasChar '?' rest3 then afterChar '?' rest3 else []
  { scheme := scheme, netloc := netloc, path := path, query := query, fragment := fragment }

/-- `netloc.split('@')[-1]`: the host-and-port part after the userinfo. -/
def afterLastAt (netloc : Str) : Str :=
  (netloc.reverse.takeWhile (fun c => c != '@')).reverse

/-- `netloc.rsplit('@', 1)[0]`: the userinfo part before the last `@`. -/
def beforeLastAt (netloc : Str) : Str :=
  ((netloc.reverse.dropWhile (fun c => c != '@')).drop 1).reverse

/-- `ParseResult.hostname`: part after the userinfo and before a `:`,
lowercased; `None` when empty (Python 2.7 `urlparse.ResultMixin`). -/
def purlHostname (p : ParsedUrl) : Option Str :=
  let n := afterLastAt p.netloc
  if hasChar ':' n then some (lowerStr (beforeChar ':' n))
  else if n.isEmpty then none
  else some (lowerStr n)

def natOfDigits (s : Str) : Nat :=
  s.foldl (fun a c => a * 10 + (c.toNat - 48)) 0

/-- `ParseResult.port`: the digits between the first and second `:` after
the userinfo; `none` when absent (an invalid port raises in Python and is
modelled as `none`; no claim exercises that case). -/
def purlPort (p : ParsedUrl) : Option Nat :=
  let n := afterLastAt p.netloc
  if hasChar ':' n then
    let ps := (afterChar ':' n).takeWhile (fun c => c != ':')
    if !ps.isEmpty && ps.all Char.isDigit then some (natOfDigits ps) else none
  else none

/-- `ParseResult.username`. -/
def purlUsername (p : ParsedUrl) : Option Str :=
  if hasChar '@' p.netloc then
    let ui := beforeLastAt p.netloc
    if hasChar ':' ui then some (beforeChar ':' ui) else some ui
  else none

/-- `ParseResult.password`. -/
def purlPassword (p : ParsedUrl) : Option Str :=
  if hasChar '@' p.netloc then
    let ui := beforeLastAt p.netloc
    if hasChar ':' ui then some (afterChar ':' ui) else none
  else none

/-! ### Canonical model -/

/-- Opaque per-request context mapping. -/
abbrev Ctx := List (Str × Str)

/-- The inbound wire request as tornado hands it to `handle_request`:
method, uri (absolute or path-only), declared protocol and host, body and
headers. -/
structure InboundRequest where
  method : Str
  uri : Str
  protocol : Str
  host : Str
  body : Option Str
  headers : HeadersT
deriving DecidableEq

/-- `RequestObj` (proxy.py lines 31-51, populated at lines 104-119). -/
structure RequestObj where
  method : Str
  protocol : Str
  username : Option Str
  password : Option Str
  host : Option Str
  port : Nat
  path : Str
  query : Str
  fragment : Str
  body : Option Str
  headers : HeadersT
  follow_redirects : Bool
  validate_cert : Bool
  context : Ctx
deriving DecidableEq

/-- `pass_headers`: either a boolean (pass all / none) or an explicit
collection of header names (proxy.py lines 272-275 check
`type(mod.pass_headers) == bool`). -/
inductive PassHeaders where
  | bool : Bool → PassHeaders
  | list : List Str → PassHeaders
deriving DecidableEq

/-- `ResponseObj` (proxy.py lines 54-73). -/
structure RespObj where
  code : Nat
  headers : HeadersT
  pass_headers : PassHeaders
  body : Option Str
  context : Ctx
deriving DecidableEq

/-- The wire response delivered by the fetch transport (or attached to an
`HTTPError`). -/
structure WireResp where
  code : Nat
  headers : HeadersT
  body : Option Str
deriving DecidableEq

/-! ### Inbound translator (`make_requestobj`, proxy.py lines 82-121) -/

/-- The absolute URL of the inbound request: the uri itself when it starts
with `http`, otherwise protocol://host + uri (proxy.py lines 92-98). -/
def absUrlOf (x : InboundRequest) : Str :=
  if ("http".toList).isPrefixOf x.uri then x.uri
  else x.protocol ++ "://".toList ++ x.host ++ x.uri

def parsedurlOf (x : InboundRequest) : ParsedUrl :=
  urlparseM (absUrlOf x)

/-- `parsedurl.port or 80`: Python `or` treats `None` and `0` as falsy. -/
def portOr80 : Option Nat → Nat
  | none => 80
  | some 0 => 80
  | some n => n

/-- The `RequestObj` built at proxy.py lines 104-119. -/
def make_requestobj (x : InboundRequest) : RequestObj × ParsedUrl :=
  let p := parsedurlOf x
  ({ method := x.method
     protocol := p.scheme
     username := none
     password := none
     host := purlHostname p
     port := portOr80 (purlPort p)
     path := p.path
     query := p.query
     fragment := p.fragment
     body := x.body
     headers := x.headers
     follow_redirects := false
     validate_cert := true
     context := [] }, p)

/-! ### Outbound builder (`make_request`, proxy.py lines 123-161) -/

/-- Python `str.format` of a possibly-`None` value. -/
def fmtOptStr : Option Str → Str
  | none => "None".toList
  | some s => s

/-- Python `a or b` on optional strings (first truthy operand). -/
def orOptS (a b : Option Str) : Option Str :=
  if optTruthy a then a else b

/-- The wire request descriptor (`tornado.httpclient.HTTPRequest`) built by
`make_request`; `allow_nonstandard_methods` is always true in the source
and carries no information, so it is not a field. -/
structure OutboundRequest where
  url : Str
  method : Str
  body : Option Str
  headers : HeadersT
  follow_redirects : Bool
deriving DecidableEq

def hostHdr : Str := "Host".toList

/-- `make_request` (proxy.py lines 123-161): default the Host header, build
the `user:password@` authority when any of the four username/password
sources is truthy, and reconstruct the URL.  Note the format template
`proto://auth host port path query frag`: the port gets a `:` and the query
a `?`, but the fragment is appended with no `#` separator. -/
def make_request (obj : RequestObj) (parsedurl : ParsedUrl) : OutboundRequest :=
  let headers := hSetDefault obj.headers hostHdr (fmtOptStr obj.host)
  let auth : Str :=
    if optTruthy obj.username || optTruthy (purlUsername parsedurl)
        || optTruthy obj.password || optTruthy (purlPassword parsedurl) then
      fmtOptStr (orOptS obj.username (purlUsername parsedurl)) ++ [':']
        ++ fmtOptStr (orOptS obj.password (purlPassword parsedurl)) ++ ['@']
    else []
  let url : Str :=
    obj.protocol ++ "://".toList ++ auth ++ fmtOptStr obj.host
      ++ (if obj.port ≠ 0 ∧ obj.port ≠ 80 then [':'] ++ Nat.toDigits 10 obj.port else [])
      ++ (if !obj.path.isEmpty then ['/'] ++ obj.path.dropWhile (fun c => c == '/') else [])
      ++ (if !obj.query.isEmpty then ['?'] ++ obj.query.dropWhile (fun c => c == '?') else [])
      ++ obj.fragment
  { url := url
    method := obj.method
    body := obj.body
    headers := headers
    follow_redirects := obj.follow_redirects }

/-! ### Response emitter (`handle_response`, proxy.py lines 223-308) -/

/-- The two exceptions the emitter can raise: tornado's `set_header` with a
`None` value raises `TypeError` (a `pass_headers` key absent from
`headers`), and `dateutil.parser.parse` raises on an unparsable `expires`
date. -/
inductive EmitErr where
  | typeError
  | dateParse
deriving DecidableEq

/-- Result of a code path that may raise (the exception propagates and the
response is never finished by the emitter). -/
inductive ERes (α : Type) where
  | ok : α → ERes α
  | err : EmitErr → ERes α
deriving DecidableEq

/-- One cookie of a `Cookie.BaseCookie` jar: key, value, and the attributes
that were actually set (Python's `Morsel` carries every reserved attribute
with value `""` when unset, and both the `if expires:` truthiness test and
`Morsel.OutputString` ignore empty attributes, so absent-vs-empty is
equivalent to this representation). -/
structure Morsel where
  key : Str
  value : Str
  params : List (Str × Str)
deriving DecidableEq

/-- A cookie written through `RequestHandler.set_cookie` (proxy.py lines
287-292): name, value, the parsed expiry, and the remaining attributes. -/
structure OutCookie where
  key : Str
  value : Str
  expires : Option Int
  params : List (Str × Str)
deriving DecidableEq

def expiresAttr : Str := "expires".toList

def lookupP (l : List (Str × Str)) (k : Str) : Option Str :=
  match l.find? (fun e => e.1 == k) with
  | some e => some e.2
  | none => none

/-- Insert-or-replace an attribute (updating an existing `Morsel`'s
attribute dictionary). -/
def upsertP (l : List (Str × Str)) (e : Str × Str) : List (Str × Str) :=
  if l.any (fun x => x.1 == e.1) then
    l.map (fun x => if x.1 == e.1 then (x.1, e.2) else x)
  else l ++ [e]

/-- Load one parsed morsel into the jar.  `BaseCookie.load` reuses the
existing `Morsel` for an already-present cookie name
(`self.get(key, Morsel())`), so a second cookie with the same name replaces
the value and overlays its attributes on the old ones; a new name is
appended. -/
def jarInsert (jar : List Morsel) (m : Morsel) : List Morsel :=
  if jar.any (fun x => x.key == m.key) then
    jar.map (fun x =>
      if x.key == m.key then
        { key := x.key, value := m.value, params := m.params.foldl upsertP x.params }
      else x)
  else jar ++ [m]

def setCookieHdr : Str := "Set-Cookie".toList

/-- The jar built at proxy.py lines 278-280: one `BaseCookie` loaded with
every `Set-Cookie` value of the response in order (`pc` is the external
cookie-string parser, giving the morsels one textual value parses to). -/
def cookieJar (pc : Str → List Morsel) (h : HeadersT) : List Morsel :=
  (hGetList h setCookieHdr).foldl (fun jar c => (pc c).foldl jarInsert jar) []

/-- Re-emit one jar cookie (proxy.py lines 281-292): pop `expires`, parse
it with `dateutil.parser.parse` when truthy — a parse failure raises — and
call `set_cookie` with the remaining attributes. -/
def emitOne (pd : Str → Option Int) (m : Morsel) : ERes OutCookie :=
  let ps := m.params.filter (fun e => !(e.1 == expiresAttr))
  match lookupP m.params expiresAttr with
  | none => .ok { key := m.key, value := m.value, expires := none, params := ps }
  | some e =>
    if e.isEmpty then .ok { key := m.key, value := m.value, expires := none, params := ps }
    else
      match pd e with
      | none => .err .dateParse
      | some t => .ok { key := m.key, value := m.value, expires := some t, params := ps }

/-- Effectful map over a list: the first raised exception propagates, as in
the Python `for` loop. -/
def mapME (f : Morsel → ERes OutCookie) : List Morsel → ERes (List OutCookie)
  | [] => .ok []
  | m :: ms =>
    match f m with
    | .err e => .err e
    | .ok c =>
      match mapME f ms with
      | .err e => .err e
      | .ok cs => .ok (c :: cs)

/-- The whole `Set-Cookie` branch of the emitter's header loop (proxy.py
lines 277-292). -/
def cookieStep (pc : Str → List Morsel) (pd : Str → Option Int) (h : HeadersT) :
    ERes (List OutCookie) :=
  mapME (emitOne pd) (cookieJar pc h)

def scN : Str := "set-cookie".toList

/-- The header keys the emitter iterates over (proxy.py lines 272-275):
all keys, no keys, or the explicit collection. -/
def header_keys_to_emit (mod : RespObj) : List Str :=
  match mod.pass_headers with
  | .bool b => if b then hKeys mod.headers else []
  | .list l => l

/-- `RequestHandler.set_header`: the outgoing header set is keyed by
normalized name, a second set of the same name overwrites. -/
def setHeaderM (hs : List (Str × Str)) (k v : Str) : List (Str × Str) :=
  if hs.any (fun e => e.1 == lowerStr k) then
    hs.map (fun e => if e.1 == lowerStr k then (e.1, v) else e)
  else hs ++ [(lowerStr k, v)]

/-- The emitter's header loop (proxy.py lines 276-295): a key spelled
`set-cookie` (case-insensitively) triggers the cookie branch, any other key
is looked up with `headers.get` and written with `set_header` — a `None`
lookup result makes `set_header` raise `TypeError`. -/
def emitHeadersAux (pc : Str → List Morsel) (pd : Str → Option Int) (mod : RespObj) :
    List Str → List (Str × Str) → List OutCookie → ERes (List (Str × Str) × List OutCookie)
  | [], acc, accC => .ok (acc, accC)
  | k :: ks, acc, accC =>
    if lowerStr k == scN then
      match cookieStep pc pd mod.headers with
      | .err e => .err e
      | .ok cs => emitHeadersAux pc pd mod ks acc (accC ++ cs)
    else
      match hGet mod.headers k with
      | none => .err .typeError
      | some v => emitHeadersAux pc pd mod ks (setHeaderM acc k v) accC

/-- The outgoing wire response assembled by the emitter: status, plain
headers (via `set_header`), cookies (via `set_cookie`) and the written
body. -/
structure EmitOutput where
  status : Nat
  headers : List (Str × Str)
  cookies : List OutCookie
  body : Str
deriving DecidableEq

def unreachableBody : Str := "Internal server error. Server unreachable.".toList

/-- The emission stage of `handle_response` (proxy.py lines 260-308), run
on the hook-transformed response `mod`: code 599 short-circuits to status
500 with the fixed body, otherwise the status is set, the selected headers
are written, and the body is written when truthy. -/
def emit_response (pc : Str → List Morsel) (pd : Str → Option Int) (mod : RespObj) :
    ERes EmitOutput :=
  if mod.code = 599 then
    .ok { status := 500, headers := [], cookies := [], body := unreachableBody }
  else
    match emitHeadersAux pc pd mod (header_keys_to_emit mod) [] [] with
    | .err e => .err e
    | .ok (hs, cs) =>
      .ok { status := mod.code, headers := hs, cookies := cs, body := mod.body.getD [] }

def contentEncodingHdr : Str := "Content-Encoding".toList
def transferEncodingHdr : Str := "Transfer-Encoding".toList

/-- Substring containment, Python's `in` on strings. -/
def containsSub (n : Str) : Str → Bool
  | [] => n.isEmpty
  | c :: rest => n.isPrefixOf (c :: rest) || containsSub n rest

/-- The outbound translator half of `handle_response` (proxy.py lines
225-245): strip `Content-Encoding` and `Transfer-Encoding` when the
`Content-Encoding` value contains `gzip`, then build a `ResponseObj` with
full header pass-through and the request's context. -/
def outbound_translate (w : WireResp) (ctx : Ctx) : RespObj :=
  let h :=
    if containsSub ("gzip".toList) ((hGet w.headers contentEncodingHdr).getD []) then
      hDel (hDel w.headers contentEncodingHdr) transferEncodingHdr
    else w.headers
  { code := w.code
    headers := h
    pass_headers := .bool true
    body := w.body
    context := ctx }

/-! ### Hook pipeline and fetch dispatch (`handle_request`, lines 163-221) -/

/-- The three caller-supplied hooks (identity by default in the source). -/
structure Hooks where
  reqHook : RequestObj → Sum RequestObj RespObj
  respHook : RespObj → RespObj
  errHook : RespObj → RespObj

/-- `handle_response` in full (proxy.py lines 223-308): translate a wire
response (or take a `ResponseObj` as-is), run the response hook or — when
the `error` flag is set — the error hook, then emit. -/
def handle_response (pc : Str → List Morsel) (pd : Str → Option Int) (hk : Hooks)
    (input : Sum WireResp RespObj) (ctx : Ctx) (error : Bool) : ERes EmitOutput :=
  let robj : RespObj :=
    match input with
    | .inl w => outbound_translate w ctx
    | .inr r => r
  let mod := if error then hk.errHook robj else hk.respHook robj
  emit_response pc pd mod

/-- The three-way outcome of `AsyncHTTPClient.fetch` as the source
classifies it: a response, an `HTTPError` carrying a partial response, or
an `HTTPError` with no response (connection refused, DNS failure,
timeout), carrying only its message text. -/
inductive FetchOutcome where
  | success : WireResp → FetchOutcome
  | errorResp : WireResp → FetchOutcome
  | hardFail : Str → FetchOutcome
deriving DecidableEq

def outcomeIsSuccess : FetchOutcome → Bool
  | .success _ => true
  | _ => false

def outcomeIsErrorResp : FetchOutcome → Bool
  | .errorResp _ => true
  | _ => false

def outcomeIsHardFail : FetchOutcome → Bool
  | .hardFail _ => true
  | _ => false

/-- The body written on the no-response path (proxy.py line 220):
`'Internal server error:\n' + str(e)`. -/
def hardFailBody (msg : Str) : Str :=
  "Internal server error:\n".toList ++ msg

/-- The body-bearing methods of the tornado-4.x fix (proxy.py line 181). -/
def bodyMethods : List Str := ["POST", "PATCH", "PUT"].map String.toList

/-- Proxy.py lines 180-184: a present body on a non-body-bearing method is
forced to `None` before the request hook runs. -/
def normalize_body (r : RequestObj) : RequestObj :=
  if r.body.isSome ∧ r.method ∉ bodyMethods then { r with body := none } else r

/-- The canonical request handed to the request hook (proxy.py line 186):
the inbound translation after body normalization. -/
def hookInputM (x : InboundRequest) : RequestObj :=
  normalize_body (make_requestobj x).1

/-- What one run of the pipeline did: which stages ran and what the emitter
produced.  The flags record the control flow of `handle_request`: the
outbound builder and the fetch run only on the forwarding branch, the
response hook runs through `handle_response` with `error=False` (success
and short-circuit), the error hook with `error=True` (partial-response
error), and the no-response branch writes the 500 page with no hook. -/
structure PipelineResult where
  builderInvoked : Bool
  fetchInvoked : Bool
  respHookInvoked : Bool
  errHookInvoked : Bool
  output : ERes EmitOutput
deriving DecidableEq

/-- `handle_request` (proxy.py lines 163-221).  The fetch transport is
modelled by the `outcome` parameter, consulted only when the request is
actually forwarded. -/
def handle_request (pc : Str → List Morsel) (pd : Str → Option Int) (hk : Hooks)
    (x : InboundRequest) (outcome : FetchOutcome) : PipelineResult :=
  match hk.reqHook (hookInputM x) with
  | .inr resp =>
    { builderInvoked := false
      fetchInvoked := false
      respHookInvoked := true
      errHookInvoked := false
      output := handle_response pc pd hk (.inr resp) [] false }
  | .inl m =>
    let _outreq := make_request m (make_requestobj x).2
    match outcome with
    | .success w =>
      { builderInvoked := true
        fetchInvoked := true
        respHookInvoked := true
        errHookInvoked := false
        output := handle_response pc pd hk (.inl w) m.context false }
    | .errorResp w =>
      { builderInvoked := true
        fetchInvoked := true
        respHookInvoked := false
        errHookInvoked := true
        output := handle_response pc pd hk (.inl w) m.context true }
    | .hardFail msg =>
      { builderInvoked := true
        fetchInvoked := true
        respHookInvoked := false
        errHookInvoked := false
        output := .ok { status := 500, headers := [], cookies := [], body := hardFailBody msg } }

/-! ### Derived forms used in theorem statements -/

/-- The comma-join of all values of a key — the value `headers.get` returns
for a present key. -/
def theGet (h : HeadersT) (k : Str) : Str :=
  List.intercalate (",".toList) (hGetList h k)

/-- A jar cookie whose `expires` attribute is absent, empty, or parseable:
the condition under which `emitOne` succeeds. -/
def morselOk (pd : Str → Option Int) (m : Morsel) : Bool :=
  match lookupP m.params expiresAttr with
  | none => true
  | some e => e.isEmpty || (pd e).isSome

/-- The outgoing cookie `emitOne` produces when it succeeds. -/
def emitOneVal (pd : Str → Option Int) (m : Morsel) : OutCookie :=
  { key := m.key
    value := m.value
    expires :=
      match lookupP m.params expiresAttr with
      | none => none
      | some e => if e.isEmpty then none else pd e
    params := m.params.filter (fun e => !(e.1 == expiresAttr)) }

/-! ### Concrete instances for witnesses and counterexamples -/

/-- A concrete instance of the external cookie-string parser (spec §6's
cookie-parsing capability), defined on the sample values used below. -/
def ceParse : Str → List Morsel := fun s =>
  if s == ("id=42; Path=/; Expires=Wed, 09 Jun 2021 10:18:14 GMT".toList) then
    [{ key := "id".toList, value := "42".toList,
       params := [(("path".toList), ("/".toList)),
                  ((expiresAttr), ("Wed, 09 Jun 2021 10:18:14 GMT".toList))] }]
  else if s == ("a=1".toList) then
    [{ key := "a".toList, value := "1".toList, params := [] }]
  else if s == ("a=2".toList) then
    [{ key := "a".toList, value := "2".toList, params := [] }]
  else if s == ("b=1; expires=garbage".toList) then
    [{ key := "b".toList, value := "1".toList,
       params := [((expiresAttr), ("garbage".toList))] }]
  else []

/-- A concrete instance of the external date parser: parses the sample RFC
date, fails on everything else (`dateutil.parser.parse` raising). -/
def ceDate : Str → Option Int := fun s =>
  if s == ("Wed, 09 Jun 2021 10:18:14 GMT".toList) then some 1623233894 else none

/-- Identity hooks — the source's `DEFAULT_CALLBACK`, with the request hook
returning the request unchanged. -/
def idHooks : Hooks :=
  { reqHook := fun r => .inl r
    respHook := fun r => r
    errHook := fun r => r }

/-- A sample synthetic response for short-circuit scenarios. -/
def ceResp : RespObj :=
  { code := 200
    headers := []
    pass_headers := .bool false
    body := some ("hi".toList)
    context := [] }

/-- Hooks whose request hook short-circuits with `ceResp` and whose
response hook visibly rewrites the status code. -/
def scHooks : Hooks :=
  { reqHook := fun _ => .inr ceResp
    respHook := fun r => { r with code := 201 }
    errHook := fun r => r }

/-- A sample inbound request in path-only (origin) form. -/
def ceX : InboundRequest :=
  { method := "GET".toList
    uri := "/status?x=1".toList
    protocol := "http".toList
    host := "example.com".toList
    body := none
    headers := [] }

/-- A sample wire response. -/
def ceWire : WireResp :=
  { code := 200
    headers := [(("Content-Type".toList), ("text/html".toList))]
    body := some ("ok".toList) }

/-- An inbound request whose absolute uri carries a fragment. -/
def sampleFragmentReq : InboundRequest :=
  { method := "GET".toList
    uri := "http://example.com/p#f".toList
    protocol := "http".toList
    host := "example.com".toList
    body := none
    headers := [] }

/-- Two Set-Cookie instances carrying the same cookie name. -/
def sampleCookieHeaders : HeadersT :=
  [((setCookieHdr), ("a=1".toList)), ((setCookieHdr), ("a=2".toList))]

/-- A Set-Cookie instance whose expires attribute does not parse. -/
def sampleBadCookieHeaders : HeadersT :=
  [((setCookieHdr), ("b=1; expires=garbage".toList))]

/-- A response carrying the 599 sentinel together with hook-set headers and
body. -/
def sample599Resp : RespObj :=
  { code := 599
    headers := [(("X".toList), ("1".toList))]
    pass_headers := .bool true
    body := some ("evil".toList)
    context := [] }

/-- A response whose explicit pass_headers collection names a key absent
from its headers. -/
def sampleMissingKeyResp : RespObj :=
  { code := 200
    headers := []
    pass_headers := .list [("X-Missing".toList)]
    body := none
    context := [] }

/-- A response with one header key carrying two values, selected
explicitly. -/
def sampleMultiValResp : RespObj :=
  { code := 200
    headers := [(("X-M".toList), ("1".toList)), (("X-M".toList), ("2".toList))]
    pass_headers := .list [("X-M".toList)]
    body := none
    context := [] }

/-- A response with several headers of which one is explicitly selected. -/
def samplePolicyResp : RespObj :=
  { code := 200
    headers := [(("Content-Type".toList), ("text/html".toList)), (("Server".toList), ("x".toList))]
    pass_headers := .list [("Content-Type".toList)]
    body := some ("ok".toList)
    context := [] }

/-- A wire response with gzip content encoding. -/
def sampleGzipWire : WireResp :=
  { code := 200
    headers := [((contentEncodingHdr), ("gzip".toList)),
                ((transferEncodingHdr), ("chunked".toList)),
                (("X".toList), ("1".toList))]
    body := some ("ok".toList) }

/-! ### Helper lemmas -/

theorem hGetList_ne_nil_of_has (h : HeadersT) (k : Str) (hh : hHasKey h k = true) :
    hGetList h k ≠ [] := by
  simp only [hHasKey, List.any_eq_true] at hh
  obtain ⟨e, he, hke⟩ := hh
  simp only [hGetList, ne_eq, List.map_eq_nil_iff, List.filter_eq_nil_iff]
  intro hall
  exact hall e he hke

theorem hGet_of_has (h : HeadersT) (k : Str) (hh : hHasKey h k = true) :
    hGet h k = some (theGet h k) := by
  have hne := hGetList_ne_nil_of_has h k hh
  simp [hGet, theGet, hne]

theorem hHasKey_hDel_self (h : HeadersT) (k : Str) : hHasKey (hDel h k) k = false := by
  simp only [hHasKey, hDel, Bool.eq_false_iff, ne_eq, List.any_eq_true, not_exists,
    List.mem_filter, Bool.not_eq_true']
  rintro e ⟨⟨_, h1⟩, h2⟩
  exact h1 h2

theorem hHasKey_hDel_of_false (h : HeadersT) (j k : Str) (hk : hHasKey h k = false) :
    hHasKey (hDel h j) k = false := by
  simp only [hHasKey, Bool.eq_false_iff, ne_eq, List.any_eq_true, not_exists] at hk ⊢
  rintro e ⟨he, hke⟩
  simp only [hDel, List.mem_filter] at he
  exact hk e ⟨he.1, hke⟩

theorem setHeaderM_append (acc : List (Str × Str)) (k v : Str)
    (h : ∀ e ∈ acc, e.1 ≠ lowerStr k) : setHeaderM acc k v = acc ++ [(lowerStr k, v)] := by
  have hany : acc.any (fun e => e.1 == lowerStr k) = false := by
    simp only [Bool.eq_false_iff, ne_eq, List.any_eq_true, not_exists]
    intro e
    simp only [not_and, beq_iff_eq]
    exact h e
  simp [setHeaderM, hany]

theorem emitOne_of_ok (pd : Str → Option Int) (m : Morsel) (h : morselOk pd m = true) :
    emitOne pd m = .ok (emitOneVal pd m) := by
  unfold emitOne emitOneVal morselOk at *
  cases he : lookupP m.params expiresAttr with
  | none => simp [he]
  | some e =>
    rw [he] at h
    by_cases hemp : e.isEmpty
    · simp [he, hemp]
    · simp only [hemp, Bool.false_or] at h
      obtain ⟨t, ht⟩ := Option.isSome_iff_exists.mp h
      simp [he, hemp, ht]

theorem emitOne_of_bad (pd : Str → Option Int) (m : Morsel) (h : morselOk pd m = false) :
    emitOne pd m = .err .dateParse := by
  unfold emitOne morselOk at *
  cases he : lookupP m.params expiresAttr with
  | none => rw [he] at h; exact absurd h (by simp)
  | some e =>
    rw [he] at h
    simp only [Bool.or_eq_false_iff] at h
    obtain ⟨h1, h2⟩ := h
    have : pd e = none := Option.not_isSome_iff_eq_none.mp (by simp [h2])
    simp [he, h1, this]

theorem mapME_of_all_ok (pd : Str → Option Int) (l : List Morsel)
    (h : ∀ m ∈ l, morselOk pd m = true) :
    mapME (emitOne pd) l = .ok (l.map (emitOneVal pd)) := by
  induction l with
  | nil => simp [mapME]
  | cons m ms ih =>
    have hm := h m (by simp)
    have hms := ih (fun a ha => h a (by simp [ha]))
    simp [mapME, emitOne_of_ok pd m hm, hms]

theorem mapME_of_bad (pd : Str → Option Int) (l : List Morsel)
    (h : ∃ m ∈ l, morselOk pd m = false) :
    mapME (emitOne pd) l = .err .dateParse := by
  induction l with
  | nil => simp at h
  | cons m ms ih =>
    by_cases hm : morselOk pd m = true
    · have hms : ∃ a ∈ ms, morselOk pd a = false := by
        obtain ⟨a, ha, hbad⟩ := h
        rcases List.mem_cons.mp ha with rfl | ha2
        · rw [hm] at hbad; exact absurd hbad (by simp)
        · exact ⟨a, ha2, hbad⟩
      simp [mapME, emitOne_of_ok pd m hm, ih hms]
    · have hbad : morselOk pd m = false := Bool.eq_false_iff.mpr hm
      simp [mapME, emitOne_of_bad pd m hbad]

theorem emitHeadersAux_spec (pc : Str → List Morsel) (pd : Str → Option Int) (mod : RespObj)
    (cs : List OutCookie) (hcs : cookieStep pc pd mod.headers = .ok cs) :
    ∀ (keys : List Str) (acc : List (Str × Str)) (accC : List OutCookie),
      (∀ k ∈ keys, lowerStr k ≠ scN → hHasKey mod.headers k = true) →
      (∀ k ∈ keys, ∀ e ∈ acc, e.1 ≠ lowerStr k) →
      (keys.map lowerStr).Nodup →
      emitHeadersAux pc pd mod keys acc accC =
        .ok (acc ++ (keys.filter (fun k => !(lowerStr k == scN))).map
               (fun k => (lowerStr k, theGet mod.headers k)),
             accC ++ ((keys.filter (fun k => lowerStr k == scN)).map (fun _ => cs)).flatten) := by
  intro keys
  induction keys with
  | nil => intro acc accC _ _ _; simp [emitHeadersAux]
  | cons k ks ih =>
    intro acc accC hpres hacc hnd
    cases hc : (lowerStr k == scN) with
    | true =>
      have ihr := ih acc (accC ++ cs)
        (fun a ha hne => hpres a (by simp [ha]) hne)
        (fun a ha e he => hacc a (by simp [ha]) e he)
        (by simpa using (List.nodup_cons.mp (by simpa using hnd)).2)
      simp only [emitHeadersAux, hc, hcs, ihr]
      simp [hc, List.append_assoc]
    | false =>
      have hne : lowerStr k ≠ scN := by
        intro hEq
        rw [hEq] at hc
        simp at hc
      have hhas := hpres k (by simp) hne
      have hget := hGet_of_has mod.headers k hhas
      have hset := setHeaderM_append acc k (theGet mod.headers k) (fun e he => hacc k (by simp) e he)
      have hnotin : lowerStr k ∉ ks.map lowerStr := (List.nodup_cons.mp (by simpa using hnd)).1
      have ihr := ih (acc ++ [(lowerStr k, theGet mod.headers k)]) accC
        (fun a ha hne2 => hpres a (by simp [ha]) hne2)
        (fun a ha e he => by
          rcases List.mem_append.mp he with he1 | he2
          · exact hacc a (by simp [ha]) e he1
          · have he3 : e = (lowerStr k, theGet mod.headers k) := by simpa using he2
            rw [he3]
            show lowerStr k ≠ lowerStr a
            intro hEq
            exact hnotin (by rw [hEq]; exact List.mem_map_of_mem lowerStr ha))
        ((List.nodup_cons.mp (by simpa using hnd)).2)
      simp only [emitHeadersAux, hc, hget, hset, ihr]
      simp [hc, List.append_assoc]

/-- The emitter on a non-599 response whose selected keys are present (and
whose cookie branch succeeds): status is the code, the plain headers are
exactly the selected non-cookie keys with their joined values, the cookies
are the jar emission (once per selected cookie key), the body is written
as-is. -/
theorem emit_response_spec (pc : Str → List Morsel) (pd : Str → Option Int) (mod : RespObj)
    (cs : List OutCookie) (h599 : mod.code ≠ 599)
    (hcs : cookieStep pc pd mod.headers = .ok cs)
    (hpres : ∀ k ∈ header_keys_to_emit mod, lowerStr k ≠ scN → hHasKey mod.headers k = true)
    (hnd : ((header_keys_to_emit mod).map lowerStr).Nodup) :
    emit_response pc pd mod =
      .ok { status := mod.code
            headers := ((header_keys_to_emit mod).filter (fun k => !(lowerStr k == scN))).map
              (fun k => (lowerStr k, theGet mod.headers k))
            cookies := (((header_keys_to_emit mod).filter (fun k => lowerStr k == scN)).map
              (fun _ => cs)).flatten
            body := mod.body.getD [] } := by
  have hspec := emitHeadersAux_spec pc pd mod cs hcs (header_keys_to_emit mod) [] []
    hpres (by simp) hnd
  simp only [List.nil_append] at hspec
  simp [emit_response, h599, hspec]

theorem filter_image_single (f : Str → Str) :
    ∀ (l : List Str) (k : Str), (l.map f).Nodup → k ∈ l →
      l.filter (fun a => f a == f k) = [k] := by
  intro l
  induction l with
  | nil => intro k _ hk; simp at hk
  | cons a as ih =>
    intro k hnd hk
    rw [List.map_cons, List.nodup_cons] at hnd
    cases hfa : (f a == f k) with
    | true =>
      have hfeq : f a = f k := by simpa using hfa
      have hak : a = k := by
        rcases List.mem_cons.mp hk with rfl | hk2
        · rfl
        · exact absurd (by rw [hfeq]; exact List.mem_map_of_mem f hk2) hnd.1
      have hrest : as.filter (fun x => f x == f k) = [] := by
        rw [List.filter_eq_nil_iff]
        intro b hb hcnt
        have hfb : f b = f k := by simpa using hcnt
        exact hnd.1 (by rw [hfeq, ← hfb]; exact List.mem_map_of_mem f hb)
      simp [List.filter_cons, hfa, hak, hrest]
    | false =>
      have hk2 : k ∈ as := by
        rcases List.mem_cons.mp hk with rfl | hk2
        · simp at hfa
        · exact hk2
      simp [List.filter_cons, hfa, ih k hnd.2 hk2]

/-! ### Claim theorems -/

/-- C1: every response reaching the emitter with code 599 is emitted as
status 500 with the fixed unreachable-upstream body; no header, cookie or
body a hook set on the object is emitted. -/
theorem sentinel_599_fixed_emission (pc : Str → List Morsel) (pd : Str → Option Int)
    (mod : RespObj) (h : mod.code = 599) :
    emit_response pc pd mod =
      .ok { status := 500, headers := [], cookies := [], body := unreachableBody } := by
  simp [emit_response, h]

/-- C1 witness: a 599 response carrying hook-set headers and body is still
emitted as the fixed 500 page. -/
theorem sentinel_599_fixed_emission_witness :
    emit_response ceParse ceDate sample599Resp =
      .ok { status := 500, headers := [], cookies := [], body := unreachableBody } :=
  sentinel_599_fixed_emission ceParse ceDate sample599Resp rfl

/-- C2 counterexample: on the no-response failure path the emitted body is
`'Internal server error:\n' + str(e)` — it differs from the fixed
unreachable-upstream body of the 599 path and varies with the error, so it
is not a fixed body. -/
theorem hard_failure_body_not_fixed :
    (handle_request ceParse ceDate idHooks ceX (.hardFail ("Connection refused".toList))).output
        = .ok { status := 500, headers := [], cookies := [],
                body := "Internal server error:\nConnection refused".toList }
    ∧ ("Internal server error:\nConnection refused".toList) ≠ unreachableBody
    ∧ hardFailBody ("Connection refused".toList) ≠ hardFailBody ("Connection timed out".toList) :=
  ⟨by decide, by decide, by decide⟩

/-- C2 (amended): an upstream error with no response at all is emitted as
status 500 with body `'Internal server error:\n'` followed by the error's
text, with no headers, and neither the response hook nor the error hook is
invoked. -/
theorem hard_failure_500_no_hooks (pc : Str → List Morsel) (pd : Str → Option Int)
    (hk : Hooks) (x : InboundRequest) (msg : Str)
    (h : (hk.reqHook (hookInputM x)).isLeft = true) :
    (handle_request pc pd hk x (.hardFail msg)).respHookInvoked = false
    ∧ (handle_request pc pd hk x (.hardFail msg)).errHookInvoked = false
    ∧ (handle_request pc pd hk x (.hardFail msg)).output
        = .ok { status := 500, headers := [], cookies := [],
                body := ("Internal server error:\n".toList) ++ msg } := by
  cases hr : hk.reqHook (hookInputM x) with
  | inl m => simp [handle_request, hr, hardFailBody]
  | inr r => rw [hr] at h; simp at h

/-- C2 witness: a concrete hard failure under identity hooks. -/
theorem hard_failure_500_no_hooks_witness :
    (handle_request ceParse ceDate idHooks ceX (.hardFail ("DNS lookup failed".toList))).respHookInvoked = false
    ∧ (handle_request ceParse ceDate idHooks ceX (.hardFail ("DNS lookup failed".toList))).errHookInvoked = false
    ∧ (handle_request ceParse ceDate idHooks ceX (.hardFail ("DNS lookup failed".toList))).output
        = .ok { status := 500, headers := [], cookies := [],
                body := ("Internal server error:\n".toList) ++ ("DNS lookup failed".toList) } :=
  hard_failure_500_no_hooks ceParse ceDate idHooks ceX ("DNS lookup failed".toList) rfl

/-- C3 counterexample: two `Set-Cookie` values with the same cookie name
load into one `BaseCookie` jar and produce a single outgoing entry, not two
distinct ones; and a cookie whose `expires` fails to parse raises (failing
the whole response) instead of being emitted without an expiry. -/
theorem setcookie_collision_and_expires_failure :
    (hGetList sampleCookieHeaders setCookieHdr).length = 2
    ∧ cookieStep ceParse ceDate sampleCookieHeaders
        = .ok [{ key := "a".toList, value := "2".toList, expires := none, params := [] }]
    ∧ cookieStep ceParse ceDate sampleBadCookieHeaders = .err .dateParse :=
  ⟨by decide, by decide, by decide⟩

/-- C3 (amended): all `Set-Cookie` values are loaded into a single cookie
jar keyed by cookie name (a later same-named cookie replaces the value and
overlays the attributes of an earlier one); when every jar cookie's
`expires` is absent, empty or parseable, each jar cookie is re-emitted as
one outgoing `Set-Cookie` entry with the same attributes and the parsed
expiry; if any jar cookie's `expires` fails to parse, the date parser's
exception propagates and the whole emission fails. -/
theorem setcookie_emission_characterization (pc : Str → List Morsel) (pd : Str → Option Int)
    (h : HeadersT) :
    cookieStep pc pd h =
      (if (cookieJar pc h).all (morselOk pd) then
        ERes.ok ((cookieJar pc h).map (emitOneVal pd))
      else .err .dateParse) := by
  by_cases hall : (cookieJar pc h).all (morselOk pd) = true
  · rw [if_pos hall]
    exact mapME_of_all_ok pd _ (by simpa [List.all_eq_true] using hall)
  · rw [if_neg (by simpa using hall)]
    have hex : ∃ m ∈ cookieJar pc h, morselOk pd m = false := by
      rw [List.all_eq_true] at hall
      push_neg at hall
      obtain ⟨m, hm, hbad⟩ := hall
      exact ⟨m, hm, Bool.eq_false_iff.mpr hbad⟩
    exact mapME_of_bad pd _ hex

/-- C4: evaluating the round-trip at a uri with a fragment.  The builder's
template adds `:` before the port and `?` before the query but nothing
before the fragment, so `http://example.com/p#f` rebuilds as
`http://example.com/pf`: the fragment is lost and corrupts the path. -/
theorem fragment_dropped_roundtrip_eval :
    (make_request (make_requestobj sampleFragmentReq).1 (make_requestobj sampleFragmentReq).2).url
        = "http://example.com/pf".toList
    ∧ (parsedurlOf sampleFragmentReq).path = "/p".toList
    ∧ (parsedurlOf sampleFragmentReq).fragment = "f".toList
    ∧ (urlparseM ((make_request (make_requestobj sampleFragmentReq).1
        (make_requestobj sampleFragmentReq).2).url)).fragment = []
    ∧ (urlparseM ((make_request (make_requestobj sampleFragmentReq).1
        (make_requestobj sampleFragmentReq).2).url)).path
        ≠ (parsedurlOf sampleFragmentReq).path :=
  ⟨by decide, by decide, by decide, by decide, by decide⟩

/-- C5 counterexample: with a short-circuiting request hook the response
hook runs (its status rewrite is visible in the output) although no fetch
— hence no success outcome — ever happened, so the response hook is not
invoked only on the success path. -/
theorem resp_hook_runs_on_short_circuit :
    (handle_request ceParse ceDate scHooks ceX (.success ceWire)).respHookInvoked = true
    ∧ (handle_request ceParse ceDate scHooks ceX (.success ceWire)).fetchInvoked = false
    ∧ (handle_request ceParse ceDate scHooks ceX (.success ceWire)).output
        = .ok { status := 201, headers := [], cookies := [], body := "hi".toList } :=
  ⟨by decide, by decide, by decide⟩

/-- C5 (amended): the two hooks never both run; the error hook runs exactly
when the request was forwarded and the fetch outcome is an upstream error
with a partial response; the response hook runs exactly on the
short-circuit path and the forwarded success path; neither runs exactly on
the forwarded hard-failure path. -/
theorem hook_invocation_discipline (pc : Str → List Morsel) (pd : Str → Option Int)
    (hk : Hooks) (x : InboundRequest) (outcome : FetchOutcome) :
    ((handle_request pc pd hk x outcome).respHookInvoked
        && (handle_request pc pd hk x outcome).errHookInvoked) = false
    ∧ (handle_request pc pd hk x outcome).errHookInvoked
        = ((hk.reqHook (hookInputM x)).isLeft && outcomeIsErrorResp outcome)
    ∧ (handle_request pc pd hk x outcome).respHookInvoked
        = (!(hk.reqHook (hookInputM x)).isLeft || outcomeIsSuccess outcome)
    ∧ (!(handle_request pc pd hk x outcome).respHookInvoked
        && !(handle_request pc pd hk x outcome).errHookInvoked)
        = ((hk.reqHook (hookInputM x)).isLeft && outcomeIsHardFail outcome) := by
  cases hr : hk.reqHook (hookInputM x) <;> cases outcome <;>
    simp [handle_request, hr, outcomeIsSuccess, outcomeIsErrorResp, outcomeIsHardFail]

/-- C6: a request hook returning a response prevents the outbound builder
and the fetch from ever being invoked; the pipeline goes straight to
`handle_response` with the hook-supplied response. -/
theorem short_circuit_skips_builder_and_fetch (pc : Str → List Morsel) (pd : Str → Option Int)
    (hk : Hooks) (x : InboundRequest) (outcome : FetchOutcome) (resp : RespObj)
    (h : hk.reqHook (hookInputM x) = .inr resp) :
    (handle_request pc pd hk x outcome).builderInvoked = false
    ∧ (handle_request pc pd hk x outcome).fetchInvoked = false
    ∧ (handle_request pc pd hk x outcome).output = handle_response pc pd hk (.inr resp) [] false := by
  simp [handle_request, h]

/-- C6 witness: the short-circuiting hooks at a concrete request. -/
theorem short_circuit_skips_builder_and_fetch_witness :
    (handle_request ceParse ceDate scHooks ceX (.success ceWire)).builderInvoked = false
    ∧ (handle_request ceParse ceDate scHooks ceX (.success ceWire)).fetchInvoked = false
    ∧ (handle_request ceParse ceDate scHooks ceX (.success ceWire)).output
        = handle_response ceParse ceDate scHooks (.inr ceResp) [] false :=
  short_circuit_skips_builder_and_fetch ceParse ceDate scHooks ceX (.success ceWire) ceResp rfl

/-- C7: the canonical request handed to the request hook has a non-null
body only when its method is POST, PATCH or PUT — a present body on any
other method has been forced to null. -/
theorem body_invariant_before_request_hook (x : InboundRequest) :
    (hookInputM x).body = none ∨ (hookInputM x).method ∈ bodyMethods := by
  unfold hookInputM normalize_body
  by_cases hcond : ((make_requestobj x).1.body.isSome = true ∧ (make_requestobj x).1.method ∉ bodyMethods)
  · rw [if_pos hcond]
    left
    rfl
  · rw [if_neg hcond]
    rcases not_and_or.mp hcond with h1 | h2
    · left
      exact Option.not_isSome_iff_eq_none.mp (by simpa using h1)
    · right
      exact not_not.mp h2

/-- C8: a wire response whose Content-Encoding value contains `gzip` yields
a canonical response with neither a Content-Encoding nor a
Transfer-Encoding header. -/
theorem gzip_strips_encoding_headers (w : WireResp) (ctx : Ctx)
    (hgz : containsSub ("gzip".toList) ((hGet w.headers contentEncodingHdr).getD []) = true) :
    hHasKey (outbound_translate w ctx).headers contentEncodingHdr = false
    ∧ hHasKey (outbound_translate w ctx).headers transferEncodingHdr = false := by
  have hh : (outbound_translate w ctx).headers
      = hDel (hDel w.headers contentEncodingHdr) transferEncodingHdr := by
    simp only [outbound_translate]
    rw [if_pos hgz]
  rw [hh]
  exact ⟨hHasKey_hDel_of_false _ _ _ (hHasKey_hDel_self _ _), hHasKey_hDel_self _ _⟩

/-- C8 witness: a gzip-encoded wire response with both headers present. -/
theorem gzip_strips_encoding_headers_witness :
    hHasKey (outbound_translate sampleGzipWire []).headers contentEncodingHdr = false
    ∧ hHasKey (outbound_translate sampleGzipWire []).headers transferEncodingHdr = false :=
  gzip_strips_encoding_headers sampleGzipWire [] (by decide)

/-- C9 counterexample: a `pass_headers` collection naming a key that is not
in `headers` makes the emitter raise (`set_header` with the `None` lookup
result), so the listed keys are not emitted and the emitter never finishes
the response. -/
theorem pass_headers_missing_key_raises :
    emit_response ceParse ceDate sampleMissingKeyResp = .err .typeError := by decide

/-- C9 (amended): a boolean `pass_headers` selects all keys of `headers` or
none; an explicit collection selects exactly its own keys (matched
case-insensitively).  Provided every selected key other than Set-Cookie is
present in `headers` (a listed absent key raises instead) and the selected
keys are distinct up to case, the emitted header keys are exactly the
selected non-cookie keys, with Set-Cookie handled by the cookie branch. -/
theorem header_selection_policy (pc : Str → List Morsel) (pd : Str → Option Int)
    (mod : RespObj) (cs : List OutCookie)
    (h599 : mod.code ≠ 599)
    (hcs : cookieStep pc pd mod.headers = .ok cs)
    (hpres : ∀ k ∈ header_keys_to_emit mod, lowerStr k ≠ scN → hHasKey mod.headers k = true)
    (hnd : ((header_keys_to_emit mod).map lowerStr).Nodup) :
    (mod.pass_headers = .bool true → header_keys_to_emit mod = hKeys mod.headers)
    ∧ (mod.pass_headers = .bool false → header_keys_to_emit mod = [])
    ∧ (∀ l, mod.pass_headers = .list l → header_keys_to_emit mod = l)
    ∧ emit_response pc pd mod =
        .ok { status := mod.code
              headers := ((header_keys_to_emit mod).filter (fun k => !(lowerStr k == scN))).map
                (fun k => (lowerStr k, theGet mod.headers k))
              cookies := (((header_keys_to_emit mod).filter (fun k => lowerStr k == scN)).map
                (fun _ => cs)).flatten
              body := mod.body.getD [] } := by
  refine ⟨?_, ?_, ?_, emit_response_spec pc pd mod cs h599 hcs hpres hnd⟩
  · intro hb; simp [header_keys_to_emit, hb]
  · intro hb; simp [header_keys_to_emit, hb]
  · intro l hb; simp [header_keys_to_emit, hb]

/-- C9 witness: an explicit collection selecting Content-Type out of two
headers emits exactly Content-Type. -/
theorem header_selection_policy_witness :
    (samplePolicyResp.pass_headers = .bool true
        → header_keys_to_emit samplePolicyResp = hKeys samplePolicyResp.headers)
    ∧ (samplePolicyResp.pass_headers = .bool false → header_keys_to_emit samplePolicyResp = [])
    ∧ (∀ l, samplePolicyResp.pass_headers = .list l → header_keys_to_emit samplePolicyResp = l)
    ∧ emit_response ceParse ceDate samplePolicyResp =
        .ok { status := samplePolicyResp.code
              headers := ((header_keys_to_emit samplePolicyResp).filter
                  (fun k => !(lowerStr k == scN))).map
                (fun k => (lowerStr k, theGet samplePolicyResp.headers k))
              cookies := (((header_keys_to_emit samplePolicyResp).filter
                  (fun k => lowerStr k == scN)).map (fun _ => ([] : List OutCookie))).flatten
              body := samplePolicyResp.body.getD [] } :=
  header_selection_policy ceParse ceDate samplePolicyResp []
    (by decide) (by decide) (by decide) (by decide)

/-- C10 counterexample: a key carrying two values is emitted as one header
line whose value is the comma-join `1,2` — the values are joined, not
dropped: the emitted value is neither of the stored values. -/
theorem multivalued_header_joined_counterexample :
    emit_response ceParse ceDate sampleMultiValResp
        = .ok { status := 200, headers := [(("x-m".toList), ("1,2".toList))],
                cookies := [], body := [] }
    ∧ ("1,2".toList) ≠ ("1".toList)
    ∧ ("1,2".toList) ≠ ("2".toList) :=
  ⟨by decide, by decide, by decide⟩

/-- C10 (amended): for every selected non-cookie key the emitter writes
exactly one outgoing header line for that key, whose value is the
comma-join of all values the canonical response carries for it — a
multi-valued key has all its values emitted joined into one line, none
dropped. -/
theorem non_cookie_key_single_joined_value (pc : Str → List Morsel) (pd : Str → Option Int)
    (mod : RespObj) (cs : List OutCookie) (k : Str)
    (h599 : mod.code ≠ 599)
    (hcs : cookieStep pc pd mod.headers = .ok cs)
    (hpres : ∀ a ∈ header_keys_to_emit mod, lowerStr a ≠ scN → hHasKey mod.headers a = true)
    (hnd : ((header_keys_to_emit mod).map lowerStr).Nodup)
    (hk1 : k ∈ header_keys_to_emit mod)
    (hk2 : lowerStr k ≠ scN) :
    ∃ o, emit_response pc pd mod = .ok o
      ∧ (o.headers.filter (fun e => e.1 == lowerStr k)).map (fun e => e.2)
          = [List.intercalate (",".toList) (hGetList mod.headers k)] := by
  refine ⟨_, emit_response_spec pc pd mod cs h599 hcs hpres hnd, ?_⟩
  have hmap : (((header_keys_to_emit mod).filter (fun a => !(lowerStr a == scN))).map
        (fun a => (lowerStr a, theGet mod.headers a))).filter (fun e => e.1 == lowerStr k)
      = (((header_keys_to_emit mod).filter (fun a => !(lowerStr a == scN))).filter
          (fun a => lowerStr a == lowerStr k)).map (fun a => (lowerStr a, theGet mod.headers a)) := by
    rw [List.filter_map]
    rfl
  have hsub : List.Sublist ((header_keys_to_emit mod).filter (fun a => !(lowerStr a == scN)))
      (header_keys_to_emit mod) := List.filter_sublist _
  have hnd2 : (((header_keys_to_emit mod).filter (fun a => !(lowerStr a == scN))).map
      lowerStr).Nodup := hnd.sublist (hsub.map lowerStr)
  have hkmem : k ∈ (header_keys_to_emit mod).filter (fun a => !(lowerStr a == scN)) :=
    List.mem_filter.mpr ⟨hk1, by simp [hk2]⟩
  have hsingle := filter_image_single lowerStr _ k hnd2 hkmem
  show List.map (fun e => e.2) (List.filter (fun e => e.1 == lowerStr k)
      (((header_keys_to_emit mod).filter (fun a => !(lowerStr a == scN))).map
        (fun a => (lowerStr a, theGet mod.headers a))))
    = [List.intercalate (",".toList) (hGetList mod.headers k)]
  rw [hmap, hsingle]
  simp [theGet]

/-- C10 witness: the two-valued key is emitted once with value `1,2`. -/
theorem non_cookie_key_single_joined_value_witness :
    ∃ o, emit_response ceParse ceDate sampleMultiValResp = .ok o
      ∧ (o.headers.filter (fun e => e.1 == lowerStr ("X-M".toList))).map (fun e => e.2)
          = [List.intercalate (",".toList) (hGetList sampleMultiValResp.headers ("X-M".toList))] :=
  non_cookie_key_single_joined_value ceParse ceDate sampleMultiValResp [] ("X-M".toList)
    (by decide) (by decide) (by decide) (by decide) (by decide) (by decide)

end Quickproxy
